import Mathlib

/-! Verification of the petalinux UVC / network-stream application.

The development shallowly embeds the C sources of the repository:

* `src/petalinux_app/vdma_control.c` — the frame-ring coordinator
  (`vdma_get_write_frame`, `vdma_get_read_buffer`);
* `src/petalinux_app/network_stream.c` — the wire header
  (`frame_header_t`, `send_frame_header`), the transport send loops
  (`send_frame_udp`, `send_frame_tcp`), the YUV422 packing classifier
  (`detect_yuv422_format`) and the capture loop (`main_loop`).

Machine integers are modelled as `Nat`/`Int` (the C values in question are
non-negative and far below 2^31, except where an explicit mask is applied);
the hardware register window and the socket are modelled as explicit
oracles (a register-file function, a list of transport send outcomes).
The C classifier's `double` arithmetic is modelled exactly over `ℚ`.
-/

/-! Section: frame-ring coordinator (`vdma_control.c`). -/

/-- Register offset `VDMA_S2MM_DMASR` (vdma_control.h). -/
def VDMA_S2MM_DMASR : Nat := 0x34

/-- Bit mask `VDMA_DMASR_FRMCNT_MASK` for the frame-count field (vdma_control.h). -/
def VDMA_DMASR_FRMCNT_MASK : Nat := 0x00FF0000

/-- Shift `VDMA_DMASR_FRMCNT_SHIFT` for the frame-count field (vdma_control.h). -/
def VDMA_DMASR_FRMCNT_SHIFT : Nat := 16

/-- The `vdma_context_t` structure (vdma_control.h), restricted to the fields
read by `vdma_get_write_frame` / `vdma_get_read_buffer`.  `regs` is the mapped
register window (`none` = never mapped), modelled as an offset-indexed view of
the register values; `frame_buffers` is the mapped frame storage (`none` = not
mapped).  File descriptors and the geometry fields not read by these two
functions are omitted. -/
structure vdma_context_t where
  regs : Option (Nat → Nat)
  frame_buffers : Option (List Nat)
  num_buffers : Nat
  frame_size : Nat

/-- Function `vdma_get_write_frame` (vdma_control.c, lines 379–390), in explicit
state-passing form: the C function performs a register read and returns;
it writes nothing, so the context comes back unchanged.  When the register
window was never mapped it returns the sentinel `-1`. -/
def vdma_get_write_frame_st (ctx : vdma_context_t) : Int × vdma_context_t :=
  match ctx.regs with
  | none => (-1, ctx)
  | some regs =>
    let status := regs VDMA_S2MM_DMASR
    let frame_count := (status &&& VDMA_DMASR_FRMCNT_MASK) >>> VDMA_DMASR_FRMCNT_SHIFT
    (((frame_count % ctx.num_buffers : Nat) : Int), ctx)

/-- The value returned by `vdma_get_write_frame`. -/
def vdma_get_write_frame (ctx : vdma_context_t) : Int :=
  (vdma_get_write_frame_st ctx).1

/-- The slot-selection policy of `vdma_get_read_buffer` (vdma_control.c,
lines 400–412), as a function of the buffer count and the polled write
cursor: slot 0 for a single buffer, otherwise clamp a negative (unavailable)
cursor to 0 and take `(write_frame + 1) % num_buffers`. -/
def safe_read_index (num_buffers : Nat) (write_frame : Int) : Nat :=
  if num_buffers = 1 then 0
  else
    let wf : Int := if write_frame < 0 then 0 else write_frame
    (wf.toNat + 1) % num_buffers

/-- Function `vdma_get_read_buffer` (vdma_control.c, lines 392–419).  Returns `none`
for the C `NULL` (frame storage not mapped); otherwise `some (idx, off)`
where `idx` is the value stored through `frame_index` and `off` the byte
offset of the returned pointer into the mapped region
(`read_frame * frame_size`). -/
def vdma_get_read_buffer (ctx : vdma_context_t) : Option (Nat × Nat) :=
  match ctx.frame_buffers with
  | none => none
  | some _ =>
    let read_frame :=
      if ctx.num_buffers = 1 then 0
      else safe_read_index ctx.num_buffers (vdma_get_write_frame ctx)
    some (read_frame, read_frame * ctx.frame_size)

/-! Section: wire header (`network_stream.c`, `frame_header_t`). -/

/-- Constant `FRAME_MAGIC` (network_stream.c, line 84). -/
def FRAME_MAGIC : Nat := 0x56494446

/-- The packed `frame_header_t` structure (network_stream.c, lines 73–82);
each field is a `uint32_t`, held here as a `Nat` below `2^32`. -/
structure frame_header_t where
  magic : Nat
  frame_num : Nat
  width : Nat
  height : Nat
  format : Nat
  frame_size : Nat
  timestamp_sec : Nat
  timestamp_usec : Nat

/-- Big-endian byte serialization of one `uint32_t` field, as produced by
`htonl` followed by the byte-wise send of the packed struct. -/
def be32 (x : Nat) : List Nat :=
  [x / 2 ^ 24 % 256, x / 2 ^ 16 % 256, x / 2 ^ 8 % 256, x % 256]

/-- The 32 wire bytes of a `frame_header_t` as assembled by
`send_frame_header` (network_stream.c, lines 380–406): eight big-endian
32-bit fields in declaration order. -/
def encode_frame_header (h : frame_header_t) : List Nat :=
  be32 h.magic ++ be32 h.frame_num ++ be32 h.width ++ be32 h.height ++
  be32 h.format ++ be32 h.frame_size ++ be32 h.timestamp_sec ++ be32 h.timestamp_usec

/-- Read one big-endian 32-bit field at byte offset `off` (receiving side,
`ntohl` of the packed field). -/
def read_be32 (l : List Nat) (off : Nat) : Nat :=
  l.getD off 0 * 2 ^ 24 + l.getD (off + 1) 0 * 2 ^ 16 +
  l.getD (off + 2) 0 * 2 ^ 8 + l.getD (off + 3) 0

/-- Decoding of the fixed 32-byte wire header on the receiving side. -/
def decode_frame_header (l : List Nat) : frame_header_t :=
  { magic := read_be32 l 0
    frame_num := read_be32 l 4
    width := read_be32 l 8
    height := read_be32 l 12
    format := read_be32 l 16
    frame_size := read_be32 l 20
    timestamp_sec := read_be32 l 24
    timestamp_usec := read_be32 l 28 }

/-! Section: streaming session (`network_stream.c`, send path).

Each call the program makes to the non-blocking `send(2)` is resolved by the
next element of an oracle list: the kernel accepted `n` bytes, or the call
failed with `EAGAIN`/`EWOULDBLOCK`, or it failed with any other `errno`. -/

/-- Constant `UDP_CHUNK_SIZE` (network_stream.c, line 65). -/
def UDP_CHUNK_SIZE : Nat := 1400

/-- Outcome of one `send(2)` call, supplied by the environment. -/
inductive SendEvent where
  | accepted (n : Nat)
  | wouldBlock
  | fatalErr
deriving DecidableEq

/-- Function `send_frame_header` (network_stream.c, lines 380–406), given the outcome
of its single `send` call on the 32-byte header: `1` on a full write, `0`
when the send buffer is full (`EAGAIN`/`EWOULDBLOCK`), `-1` on any other
failure. -/
def send_frame_header (e : SendEvent) : Int :=
  match e with
  | .accepted n => if n = 32 then 1 else -1
  | .wouldBlock => 0
  | .fatalErr => -1

/-- Result of a payload send loop: whether it aborted on a transport error
other than would-block (`fatal`), whether `offset` reached `size` before the
oracle ran out (`complete`), how many payload bytes the transport accepted,
and the byte count requested by each individual `send` call. -/
structure PayloadRes where
  fatal : Bool
  complete : Bool
  bytesSent : Nat
  chunkCalls : List Nat
deriving DecidableEq

/-- The payload loop of `send_frame_udp` (network_stream.c, lines 422–441):
while `offset < size`, request `min UDP_CHUNK_SIZE (size - offset)` bytes;
on would-block wait briefly and retry, on any other error abort with `-1`,
otherwise advance `offset` by the accepted count. -/
def udp_payload_loop (size offset : Nat) : List SendEvent → PayloadRes
  | [] =>
    if size ≤ offset then ⟨false, true, 0, []⟩ else ⟨false, false, 0, []⟩
  | e :: rest =>
    if size ≤ offset then ⟨false, true, 0, []⟩
    else
      let chunk := if UDP_CHUNK_SIZE < size - offset then UDP_CHUNK_SIZE else size - offset
      match e with
      | .accepted n =>
        let r := udp_payload_loop size (offset + n) rest
        ⟨r.fatal, r.complete, n + r.bytesSent, chunk :: r.chunkCalls⟩
      | .wouldBlock =>
        let r := udp_payload_loop size offset rest
        ⟨r.fatal, r.complete, r.bytesSent, chunk :: r.chunkCalls⟩
      | .fatalErr => ⟨true, false, 0, [chunk]⟩

/-- The payload loop of `send_frame_tcp` (network_stream.c, lines 457–470):
identical to the UDP loop except that each `send` call requests the whole
remaining `size - offset`. -/
def tcp_payload_loop (size offset : Nat) : List SendEvent → PayloadRes
  | [] =>
    if size ≤ offset then ⟨false, true, 0, []⟩ else ⟨false, false, 0, []⟩
  | e :: rest =>
    if size ≤ offset then ⟨false, true, 0, []⟩
    else
      let chunk := size - offset
      match e with
      | .accepted n =>
        let r := tcp_payload_loop size (offset + n) rest
        ⟨r.fatal, r.complete, n + r.bytesSent, chunk :: r.chunkCalls⟩
      | .wouldBlock =>
        let r := tcp_payload_loop size offset rest
        ⟨r.fatal, r.complete, r.bytesSent, chunk :: r.chunkCalls⟩
      | .fatalErr => ⟨true, false, 0, [chunk]⟩

/-- Result of `send_frame_udp` / `send_frame_tcp`: the C return value
(`-1` error, `0` otherwise — note the C functions return `0` both after a
completed payload and after a header-level skip), whether the header was
fully sent, and the payload-loop record (all zero when the payload loop was
never entered). -/
structure FrameSendRes where
  ret : Int
  headerOk : Bool
  payload : PayloadRes
deriving DecidableEq

/-- Function `send_frame_udp` (network_stream.c, lines 411–441): send the header
first; a would-block there abandons the whole frame with return value `0`,
a hard header failure returns `-1`; otherwise run the chunked payload loop
and return `-1` exactly when it aborted. -/
def send_frame_udp (size : Nat) (events : List SendEvent) : FrameSendRes :=
  match events with
  | [] => ⟨0, false, ⟨false, false, 0, []⟩⟩
  | e :: rest =>
    let header_ret := send_frame_header e
    if header_ret < 0 then ⟨-1, false, ⟨false, false, 0, []⟩⟩
    else if header_ret = 0 then ⟨0, false, ⟨false, false, 0, []⟩⟩
    else
      let p := udp_payload_loop size 0 rest
      ⟨if p.fatal then -1 else 0, true, p⟩

/-- Function `send_frame_tcp` (network_stream.c, lines 446–473): same structure as
`send_frame_udp` with the stream-mode payload loop. -/
def send_frame_tcp (size : Nat) (events : List SendEvent) : FrameSendRes :=
  match events with
  | [] => ⟨0, false, ⟨false, false, 0, []⟩⟩
  | e :: rest =>
    let header_ret := send_frame_header e
    if header_ret < 0 then ⟨-1, false, ⟨false, false, 0, []⟩⟩
    else if header_ret = 0 then ⟨0, false, ⟨false, false, 0, []⟩⟩
    else
      let p := tcp_payload_loop size 0 rest
      ⟨if p.fatal then -1 else 0, true, p⟩

/-! Section: capture loop (`network_stream.c`, `main_loop`). -/

/-- Constant `NUM_FRAMES` (network_stream.c, line 50). -/
def NUM_FRAMES : Nat := 3

/-- The mutable locals of `main_loop` that survive an iteration
(network_stream.c, lines 778–780). -/
structure LoopState where
  frame_count : Nat
  last_vdma_frame : Int
  skipped_frames : Nat
deriving DecidableEq

/-- What one `main_loop` iteration did: skipped an unchanged frame
(`continue` after a 1 ms sleep, nothing sent), attempted an emission and
continued, or broke out of the loop after a fatal send (`Shutdown`). -/
inductive IterKind where
  | skippedNoChange
  | emitted
  | shutdown
deriving DecidableEq

/-- Observable outcome of one `main_loop` iteration: the updated locals,
what the iteration did, and the frame-send record (`none` when no send of
any kind was attempted). -/
structure IterOut where
  st : LoopState
  kind : IterKind
  sent : Option FrameSendRes
deriving DecidableEq

/-- The emission path of a `main_loop` iteration (network_stream.c,
lines 834–891), after the transport send returned `r`: record the newly
observed cursor, break on a negative return (`Shutdown`), otherwise count
the frame. -/
def main_loop_send_result (st : LoopState) (current_vdma_frame : Int)
    (r : FrameSendRes) : IterOut :=
  if r.ret < 0 then
    ⟨⟨st.frame_count, current_vdma_frame, st.skipped_frames⟩, .shutdown, some r⟩
  else
    ⟨⟨st.frame_count + 1, current_vdma_frame, st.skipped_frames⟩, .emitted, some r⟩

/-- The emission path continued: pick the transport and dispatch on the
send result. -/
def main_loop_emit (st : LoopState) (current_vdma_frame : Int) (use_tcp : Bool)
    (frame_size : Nat) (events : List SendEvent) : IterOut :=
  main_loop_send_result st current_vdma_frame
    (if use_tcp then send_frame_tcp frame_size events
     else send_frame_udp frame_size events)

/-- One iteration of `main_loop` (network_stream.c, lines 810–916).  The
polled cursor `current_vdma_frame` is the value `vdma_get_current_frame`
read from the hardware this iteration.  If it equals the previously
observed cursor and at least one frame has been counted, skip mode
increments `skipped_frames`, sleeps 1 ms and re-polls without sending;
force mode falls through to the emission path. -/
def main_loop_iter (st : LoopState) (current_vdma_frame : Int)
    (force_send use_tcp : Bool) (frame_size : Nat)
    (events : List SendEvent) : IterOut :=
  if current_vdma_frame = st.last_vdma_frame ∧ 0 < st.frame_count then
    if force_send then
      main_loop_emit st current_vdma_frame use_tcp frame_size events
    else
      ⟨⟨st.frame_count, st.last_vdma_frame, st.skipped_frames + 1⟩,
        .skippedNoChange, none⟩
  else
    main_loop_emit st current_vdma_frame use_tcp frame_size events

/-! Section: format classifier (`network_stream.c`, `detect_yuv422_format`).

The C function computes with `double`s; the arithmetic it performs (sums,
second moments, one division and one absolute value per hypothesis) is
modelled exactly over `ℚ`.  A frame byte at index `i` of the sampled buffer
is `buf.getD i 0`. -/

/-- The `pixel_format_t` enumeration (network_stream.c, lines 109–112). -/
inductive pixel_format_t where
  | PIXFMT_YUYV
  | PIXFMT_UYVY
deriving DecidableEq

/-- The eight running accumulators of the classifier's sampling loop
(network_stream.c, lines 221–222). -/
structure yuv_sums where
  sum_c_yuyv : Nat
  sum2_c_yuyv : Nat
  sum_y_yuyv : Nat
  sum2_y_yuyv : Nat
  sum_c_uyvy : Nat
  sum2_c_uyvy : Nat
  sum_y_uyvy : Nat
  sum2_y_uyvy : Nat
deriving DecidableEq

/-- One iteration of the classifier's sampling loop (network_stream.c,
lines 224–249): group `g` contributes bytes `4g..4g+3`; under the YUYV
hypothesis bytes 1 and 3 are chroma and bytes 0 and 2 luma, under UYVY the
roles swap. -/
def yuv_group_step (buf : List Nat) (s : yuv_sums) (g : Nat) : yuv_sums :=
  let b0 := buf.getD (4 * g) 0
  let b1 := buf.getD (4 * g + 1) 0
  let b2 := buf.getD (4 * g + 2) 0
  let b3 := buf.getD (4 * g + 3) 0
  { sum_c_yuyv := s.sum_c_yuyv + b1 + b3
    sum2_c_yuyv := s.sum2_c_yuyv + b1 * b1 + b3 * b3
    sum_y_yuyv := s.sum_y_yuyv + b0 + b2
    sum2_y_yuyv := s.sum2_y_yuyv + b0 * b0 + b2 * b2
    sum_c_uyvy := s.sum_c_uyvy + b0 + b2
    sum2_c_uyvy := s.sum2_c_uyvy + b0 * b0 + b2 * b2
    sum_y_uyvy := s.sum_y_uyvy + b1 + b3
    sum2_y_uyvy := s.sum2_y_uyvy + b1 * b1 + b3 * b3 }

/-- The accumulators after the sampling loop has run over `groups` groups. -/
def yuv_accum (buf : List Nat) (groups : Nat) : yuv_sums :=
  (List.range groups).foldl (yuv_group_step buf) ⟨0, 0, 0, 0, 0, 0, 0, 0⟩

/-- The number of 4-byte groups the classifier samples: the buffer length
capped at 256 KiB (network_stream.c, lines 216–217), divided by 4. -/
def sample_groups (len : Nat) : Nat :=
  (if len > 256 * 1024 then 256 * 1024 else len) / 4

/-- The per-hypothesis score (network_stream.c, lines 253–266): with
`n` samples per channel, `mean = sum / n`, `var = sum2 / n - mean²`, and
`score = (var_c + eps) / (var_y + eps) + |mean_c - 128| / 128` with
`eps = 1`.  Lower is better. -/
def yuv_score (sum_c sum2_c sum_y sum2_y : Nat) (n : ℚ) : ℚ :=
  let mean_c : ℚ := (sum_c : ℚ) / n
  let var_c : ℚ := (sum2_c : ℚ) / n - mean_c * mean_c
  let mean_y : ℚ := (sum_y : ℚ) / n
  let var_y : ℚ := (sum2_y : ℚ) / n - mean_y * mean_y
  (var_c + 1) / (var_y + 1) + |mean_c - 128| / 128

/-- The pair `(score_yuyv, score_uyvy)` the classifier compares, with
`n = groups * 2` samples per channel (network_stream.c, line 251). -/
def detect_scores (buf : List Nat) : ℚ × ℚ :=
  let groups := sample_groups buf.length
  let s := yuv_accum buf groups
  let n : ℚ := ((groups * 2 : Nat) : ℚ)
  (yuv_score s.sum_c_yuyv s.sum2_c_yuyv s.sum_y_yuyv s.sum2_y_yuyv n,
   yuv_score s.sum_c_uyvy s.sum2_c_uyvy s.sum_y_uyvy s.sum2_y_uyvy n)

/-- Function `detect_yuv422_format` (network_stream.c, lines 211–277): buffers below
1024 bytes, or yielding fewer than 64 sample groups, get the documented
default `PIXFMT_YUYV`; otherwise the hypothesis with the strictly lower
score wins (ties go to YUYV, matching `score_uyvy < score_yuyv`). -/
def detect_yuv422_format (buf : List Nat) : pixel_format_t :=
  if buf.length < 1024 then .PIXFMT_YUYV
  else if sample_groups buf.length < 64 then .PIXFMT_YUYV
  else if (detect_scores buf).2 < (detect_scores buf).1 then .PIXFMT_UYVY
  else .PIXFMT_YUYV

/-! Section: spec-side view of the classifier, for the refinement statement: the
bytes each hypothesis assigns to chroma resp. luma, their mean and
variance as list statistics, and the resulting scores. -/

/-- The bytes the YUYV hypothesis assigns to chroma (positions 1 and 3 of
each sampled 4-byte group) — equally, the bytes the UYVY hypothesis assigns
to luma. -/
def yuyv_chroma_bytes (buf : List Nat) (groups : Nat) : List Nat :=
  (List.range groups).flatMap fun g => [buf.getD (4 * g + 1) 0, buf.getD (4 * g + 3) 0]

/-- The bytes the YUYV hypothesis assigns to luma (positions 0 and 2 of
each sampled 4-byte group) — equally, the bytes the UYVY hypothesis assigns
to chroma. -/
def yuyv_luma_bytes (buf : List Nat) (groups : Nat) : List Nat :=
  (List.range groups).flatMap fun g => [buf.getD (4 * g) 0, buf.getD (4 * g + 2) 0]

/-- Mean of a list of byte values, as a rational. -/
def qmean (l : List Nat) : ℚ := ((l.sum : Nat) : ℚ) / (l.length : ℚ)

/-- Variance (second moment minus squared mean) of a list of byte values. -/
def qvar (l : List Nat) : ℚ :=
  (((l.map fun x => x * x).sum : Nat) : ℚ) / (l.length : ℚ) - qmean l * qmean l

/-- The score the code effectively computes for a hypothesis, stated over
the assigned byte lists: `(var(chroma) + 1) / (var(luma) + 1) +
|mean(chroma) - 128| / 128`. -/
def reg_score (chroma luma : List Nat) : ℚ :=
  (qvar chroma + 1) / (qvar luma + 1) + |qmean chroma - 128| / 128

/-- The score formula as the specification words it, without the `eps = 1`
regularization: `var(chroma) / var(luma) + |mean(chroma) - 128| / 128`. -/
def spec_score (chroma luma : List Nat) : ℚ :=
  qvar chroma / qvar luma + |qmean chroma - 128| / 128

/-- A 1024-byte buffer of identical groups `[123, 8, 133, 16]`: the even
positions have mean 128 and variance 25, the odd positions mean 12 and
variance 16. -/
def cex_buf : List Nat :=
  (List.range 1024).map fun i =>
    if i % 4 = 0 then 123 else if i % 4 = 1 then 8 else if i % 4 = 2 then 133 else 16

/-- A 1024-byte synthetic buffer of identical groups `[0, 128, 255, 128]`:
the odd byte positions are constantly 128 (variance 0, mean 128) while the
even positions alternate between 0 and 255 (high variance). -/
def synth_buf : List Nat :=
  (List.range 1024).map fun i =>
    if i % 4 = 1 then 128 else if i % 4 = 3 then 128 else if i % 4 = 0 then 0 else 255

/-- The send-oracle under which every `send` call accepts its full request
for a 614400-byte frame: the 32-byte header, then 438 full 1400-byte chunks
and one final 1200-byte chunk. -/
def full_accept_events : List SendEvent :=
  SendEvent.accepted 32 ::
    (List.replicate 438 (SendEvent.accepted 1400) ++ [SendEvent.accepted 1200])

/-! Section: helper lemmas. -/

theorem succ_mod_ne (N w : Nat) (h2 : 2 ≤ N) (hw : w < N) : (w + 1) % N ≠ w := by
  intro heq
  rcases Nat.lt_or_ge (w + 1) N with h | h
  · rw [Nat.mod_eq_of_lt h] at heq
    omega
  · have hN : w + 1 = N := by omega
    rw [hN, Nat.mod_self] at heq
    omega

theorem safe_read_index_lt (N : Nat) (wf : Int) (h : 0 < N) :
    safe_read_index N wf < N := by
  unfold safe_read_index
  split
  · omega
  · exact Nat.mod_lt _ h

theorem safe_read_index_unavailable (N : Nat) :
    safe_read_index N (-1) = 1 % N := by
  unfold safe_read_index
  split
  · rename_i h
    subst h
    rfl
  · norm_num

/-- Claim C1: the safe read slot is a pure function of the write cursor and
the buffer count N: for N = 1 it is always slot 0, for N ≥ 2 it is
`(write_cursor + 1) mod N`, and for N = 3 the write-cursor sequence
0,0,1,1,2,0,1 yields the safe-read-slot sequence 1,1,2,2,0,1,2. -/
theorem C1_safe_read_slot_policy :
    (∀ wf : Int, safe_read_index 1 wf = 0) ∧
    (∀ (N : Nat) (wf : Int), 2 ≤ N → 0 ≤ wf →
      ((safe_read_index N wf : Nat) : Int) = (wf + 1) % (N : Int)) ∧
    (([0, 0, 1, 1, 2, 0, 1] : List Int).map (safe_read_index 3) =
      [1, 1, 2, 2, 0, 1, 2]) := by
  refine ⟨fun wf => by unfold safe_read_index; simp, fun N wf h2 h0 => ?_, by decide⟩
  unfold safe_read_index
  rw [if_neg (by omega)]
  simp only [if_neg (by omega : ¬ wf < 0)]
  rw [Int.ofNat_emod]
  have ht : ((wf.toNat : Nat) : Int) = wf := Int.toNat_of_nonneg h0
  push_cast [ht]
  ring_nf

/-- Witness for C1 at N = 3, write cursor 2. -/
theorem C1_witness :
    ((safe_read_index 3 2 : Nat) : Int) = ((2 : Int) + 1) % ((3 : Nat) : Int) :=
  C1_safe_read_slot_policy.2.1 3 2 (by decide) (by decide)

/-- Claim C2: for every buffer count N ≥ 2 and every polled register value,
the slot selected for reading never equals the polled write cursor. -/
theorem C2_safe_read_neq_write_cursor :
    ∀ (ctx : vdma_context_t) (rf : Nat → Nat), ctx.regs = some rf →
      2 ≤ ctx.num_buffers →
      ((safe_read_index ctx.num_buffers (vdma_get_write_frame ctx) : Nat) : Int)
        ≠ vdma_get_write_frame ctx := by
  intro ctx rf hregs hN
  unfold vdma_get_write_frame vdma_get_write_frame_st
  simp only [hregs]
  set w : Nat :=
    ((rf VDMA_S2MM_DMASR &&& VDMA_DMASR_FRMCNT_MASK) >>> VDMA_DMASR_FRMCNT_SHIFT)
      % ctx.num_buffers with hw
  have hwlt : w < ctx.num_buffers := Nat.mod_lt _ (by omega)
  unfold safe_read_index
  rw [if_neg (by omega)]
  simp only [if_neg (by simp : ¬ ((w : Nat) : Int) < 0), Int.toNat_natCast]
  intro heq
  have : (w + 1) % ctx.num_buffers = w := by exact_mod_cast heq
  exact succ_mod_ne ctx.num_buffers w hN hwlt this

/-- Witness for C2: three buffers, register value with frame count 1. -/
theorem C2_witness :
    ((safe_read_index
        (vdma_context_t.mk (some fun _ => 0x00010000) none 3 614400).num_buffers
        (vdma_get_write_frame
          (vdma_context_t.mk (some fun _ => 0x00010000) none 3 614400)) : Nat) : Int)
      ≠ vdma_get_write_frame
          (vdma_context_t.mk (some fun _ => 0x00010000) none 3 614400) :=
  C2_safe_read_neq_write_cursor _ _ rfl (by decide)

/-- Claim C9: when the register window was never mapped,
`vdma_get_write_frame` returns the sentinel -1 and has no other effect:
the context comes back unchanged and no error is raised (the function has
no error channel). -/
theorem C9_write_cursor_sentinel :
    ∀ ctx : vdma_context_t, ctx.regs = none →
      vdma_get_write_frame_st ctx = (-1, ctx) := by
  intro ctx h
  unfold vdma_get_write_frame_st
  simp only [h]

/-- Witness for C9 on a concrete unmapped context. -/
theorem C9_witness :
    vdma_get_write_frame_st (vdma_context_t.mk none none 3 614400) =
      (-1, vdma_context_t.mk none none 3 614400) :=
  C9_write_cursor_sentinel _ rfl

/-- Claim C10: for every context whose frame-buffer region is mapped (and
whose buffer count is positive, as `vdma_init` guarantees),
`vdma_get_read_buffer` returns a non-NULL pointer and an index below
`num_buffers`; when the write cursor is unavailable (register window never
mapped, sentinel -1) it substitutes cursor 0 and returns the slot at index
`1 % num_buffers` instead of reporting that no frame is available. -/
theorem C10_read_buffer_total :
    ∀ (ctx : vdma_context_t) (fb : List Nat), ctx.frame_buffers = some fb →
      0 < ctx.num_buffers →
      (∃ r, vdma_get_read_buffer ctx = some r ∧ r.1 < ctx.num_buffers) ∧
      (ctx.regs = none →
        vdma_get_read_buffer ctx =
          some (1 % ctx.num_buffers, 1 % ctx.num_buffers * ctx.frame_size)) := by
  intro ctx fb hfb hN
  unfold vdma_get_read_buffer
  simp only [hfb]
  constructor
  · refine ⟨_, rfl, ?_⟩
    split
    · omega
    · exact safe_read_index_lt _ _ hN
  · intro hregs
    have hwf : vdma_get_write_frame ctx = -1 := by
      unfold vdma_get_write_frame vdma_get_write_frame_st
      simp only [hregs]
    rw [hwf]
    split
    · rename_i h1
      rw [h1]
    · rw [safe_read_index_unavailable]

/-- Witness for C10 on a concrete mapped context with unmapped registers. -/
theorem C10_witness :
    (∃ r, vdma_get_read_buffer (vdma_context_t.mk none (some []) 3 614400) = some r ∧
        r.1 < (vdma_context_t.mk none (some []) 3 614400).num_buffers) ∧
      ((vdma_context_t.mk none (some []) 3 614400).regs = none →
        vdma_get_read_buffer (vdma_context_t.mk none (some []) 3 614400) =
          some (1 % (vdma_context_t.mk none (some []) 3 614400).num_buffers,
            1 % (vdma_context_t.mk none (some []) 3 614400).num_buffers *
              (vdma_context_t.mk none (some []) 3 614400).frame_size)) :=
  C10_read_buffer_total _ [] rfl (by decide)

theorem be32_mem_lt (x : Nat) : ∀ b ∈ be32 x, b < 256 := by
  intro b hb
  simp only [be32, List.mem_cons, List.not_mem_nil, or_false] at hb
  rcases hb with rfl | rfl | rfl | rfl <;> omega

theorem be32_digits (x : Nat) (h : x < 2 ^ 32) :
    x / 2 ^ 24 % 256 * 2 ^ 24 + x / 2 ^ 16 % 256 * 2 ^ 16 +
      x / 2 ^ 8 % 256 * 2 ^ 8 + x % 256 = x := by
  omega

/-- Claim C7: the wire header is a fixed 32-byte record of eight big-endian
32-bit fields in the order magic, sequence, width, height, format, payload
length, timestamp seconds, timestamp microseconds, and decoding an encoded
header recovers the width, height, format, payload-length and sequence
fields exactly (for any uint32 field values). -/
theorem C7_header_wire_roundtrip :
    ∀ h : frame_header_t,
      (encode_frame_header h).length = 32 ∧
      (∀ b ∈ encode_frame_header h, b < 256) ∧
      (h.width < 2 ^ 32 →
        (decode_frame_header (encode_frame_header h)).width = h.width) ∧
      (h.height < 2 ^ 32 →
        (decode_frame_header (encode_frame_header h)).height = h.height) ∧
      (h.format < 2 ^ 32 →
        (decode_frame_header (encode_frame_header h)).format = h.format) ∧
      (h.frame_size < 2 ^ 32 →
        (decode_frame_header (encode_frame_header h)).frame_size = h.frame_size) ∧
      (h.frame_num < 2 ^ 32 →
        (decode_frame_header (encode_frame_header h)).frame_num = h.frame_num) := by
  intro h
  refine ⟨rfl, ?_, ?_, ?_, ?_, ?_, ?_⟩
  · intro b hb
    unfold encode_frame_header at hb
    simp only [List.mem_append] at hb
    rcases hb with ((((((hb | hb) | hb) | hb) | hb) | hb) | hb) | hb <;>
      exact be32_mem_lt _ _ hb
  · intro hx
    show h.width / 2 ^ 24 % 256 * 2 ^ 24 + h.width / 2 ^ 16 % 256 * 2 ^ 16 +
      h.width / 2 ^ 8 % 256 * 2 ^ 8 + h.width % 256 = h.width
    omega
  · intro hx
    show h.height / 2 ^ 24 % 256 * 2 ^ 24 + h.height / 2 ^ 16 % 256 * 2 ^ 16 +
      h.height / 2 ^ 8 % 256 * 2 ^ 8 + h.height % 256 = h.height
    omega
  · intro hx
    show h.format / 2 ^ 24 % 256 * 2 ^ 24 + h.format / 2 ^ 16 % 256 * 2 ^ 16 +
      h.format / 2 ^ 8 % 256 * 2 ^ 8 + h.format % 256 = h.format
    omega
  · intro hx
    show h.frame_size / 2 ^ 24 % 256 * 2 ^ 24 + h.frame_size / 2 ^ 16 % 256 * 2 ^ 16 +
      h.frame_size / 2 ^ 8 % 256 * 2 ^ 8 + h.frame_size % 256 = h.frame_size
    omega
  · intro hx
    show h.frame_num / 2 ^ 24 % 256 * 2 ^ 24 + h.frame_num / 2 ^ 16 % 256 * 2 ^ 16 +
      h.frame_num / 2 ^ 8 % 256 * 2 ^ 8 + h.frame_num % 256 = h.frame_num
    omega

/-- Witness for C7 on a concrete header (640x480 YUYV frame 7). -/
theorem C7_witness :
    (decode_frame_header (encode_frame_header
        (frame_header_t.mk FRAME_MAGIC 7 640 480 1 614400 100 5))).width =
      (frame_header_t.mk FRAME_MAGIC 7 640 480 1 614400 100 5).width :=
  (C7_header_wire_roundtrip
    (frame_header_t.mk FRAME_MAGIC 7 640 480 1 614400 100 5)).2.2.1 (by decide)

theorem udp_chunk_le :
    ∀ (events : List SendEvent) (size offset : Nat),
      ∀ c ∈ (udp_payload_loop size offset events).chunkCalls, c ≤ UDP_CHUNK_SIZE := by
  intro events
  induction events with
  | nil =>
    intro size offset c hc
    unfold udp_payload_loop at hc
    split at hc <;> simp at hc
  | cons e rest ih =>
    intro size offset c hc
    cases e with
    | accepted n =>
      simp only [udp_payload_loop] at hc
      split at hc
      · simp at hc
      · simp only [List.mem_cons] at hc
        rcases hc with rfl | hc
        · split <;> omega
        · exact ih _ _ _ hc
    | wouldBlock =>
      simp only [udp_payload_loop] at hc
      split at hc
      · simp at hc
      · simp only [List.mem_cons] at hc
        rcases hc with rfl | hc
        · split <;> omega
        · exact ih _ _ _ hc
    | fatalErr =>
      simp only [udp_payload_loop] at hc
      split at hc
      · simp at hc
      · simp only [List.mem_cons, List.not_mem_nil, or_false] at hc
        subst hc
        split <;> omega

theorem udp_no_fatal :
    ∀ (events : List SendEvent) (size offset : Nat), SendEvent.fatalErr ∉ events →
      (udp_payload_loop size offset events).fatal = false := by
  intro events
  induction events with
  | nil =>
    intro size offset _
    unfold udp_payload_loop
    split <;> rfl
  | cons e rest ih =>
    intro size offset hmem
    have hrest : SendEvent.fatalErr ∉ rest := fun hm => hmem (List.mem_cons_of_mem _ hm)
    cases e with
    | accepted n =>
      simp only [udp_payload_loop]
      split
      · rfl
      · exact ih _ _ hrest
    | wouldBlock =>
      simp only [udp_payload_loop]
      split
      · rfl
      · exact ih _ _ hrest
    | fatalErr => exact absurd (List.mem_cons_self _ _) hmem

theorem tcp_no_fatal :
    ∀ (events : List SendEvent) (size offset : Nat), SendEvent.fatalErr ∉ events →
      (tcp_payload_loop size offset events).fatal = false := by
  intro events
  induction events with
  | nil =>
    intro size offset _
    unfold tcp_payload_loop
    split <;> rfl
  | cons e rest ih =>
    intro size offset hmem
    have hrest : SendEvent.fatalErr ∉ rest := fun hm => hmem (List.mem_cons_of_mem _ hm)
    cases e with
    | accepted n =>
      simp only [tcp_payload_loop]
      split
      · rfl
      · exact ih _ _ hrest
    | wouldBlock =>
      simp only [tcp_payload_loop]
      split
      · rfl
      · exact ih _ _ hrest
    | fatalErr => exact absurd (List.mem_cons_self _ _) hmem

set_option maxRecDepth 100000 in
set_option maxHeartbeats 2000000 in
/-- Claim C5: in datagram mode every payload `send` call requests at most
`UDP_CHUNK_SIZE = 1400` bytes, and when every send accepts its full chunk a
614400-byte payload takes exactly `ceil(614400/1400) = 439` chunk sends,
with the header sent separately beforehand. -/
theorem C5_udp_chunking :
    (∀ (size offset : Nat) (events : List SendEvent),
      ∀ c ∈ (udp_payload_loop size offset events).chunkCalls, c ≤ UDP_CHUNK_SIZE) ∧
    ((send_frame_udp 614400 full_accept_events).headerOk = true ∧
      (send_frame_udp 614400 full_accept_events).payload.chunkCalls.length = 439 ∧
      (send_frame_udp 614400 full_accept_events).payload.complete = true ∧
      (send_frame_udp 614400 full_accept_events).payload.bytesSent = 614400) ∧
    (614400 + UDP_CHUNK_SIZE - 1) / UDP_CHUNK_SIZE = 439 := by
  refine ⟨fun size offset events c hc => udp_chunk_le events size offset c hc, ?_, by decide⟩
  refine ⟨by decide, by decide, by decide, by decide⟩

/-- Witness for C5: the chunk bound applied to a concrete loop run. -/
theorem C5_witness :
    ∀ c ∈ (udp_payload_loop 3000 0
        [SendEvent.accepted 1400, SendEvent.accepted 1400, SendEvent.accepted 200]).chunkCalls,
      c ≤ UDP_CHUNK_SIZE :=
  fun c hc => C5_udp_chunking.1 3000 0 _ c hc

/-- Claim C6: during payload transmission a would-block is retried (same
offset, no abort) in both transport modes and never aborts the frame when
no other error occurs, while any transport error other than would-block
makes `send_frame` return -1 (`Fatal`), on which `main_loop` breaks out
(`Shutdown`). -/
theorem C6_fatal_handling :
    (∀ (size offset : Nat) (events : List SendEvent), SendEvent.fatalErr ∉ events →
      (udp_payload_loop size offset events).fatal = false ∧
      (tcp_payload_loop size offset events).fatal = false) ∧
    (∀ (size offset : Nat) (events : List SendEvent), offset < size →
      ((udp_payload_loop size offset (SendEvent.wouldBlock :: events)).fatal =
          (udp_payload_loop size offset events).fatal ∧
        (udp_payload_loop size offset (SendEvent.wouldBlock :: events)).complete =
          (udp_payload_loop size offset events).complete ∧
        (udp_payload_loop size offset (SendEvent.wouldBlock :: events)).bytesSent =
          (udp_payload_loop size offset events).bytesSent) ∧
      ((tcp_payload_loop size offset (SendEvent.wouldBlock :: events)).fatal =
          (tcp_payload_loop size offset events).fatal ∧
        (tcp_payload_loop size offset (SendEvent.wouldBlock :: events)).complete =
          (tcp_payload_loop size offset events).complete ∧
        (tcp_payload_loop size offset (SendEvent.wouldBlock :: events)).bytesSent =
          (tcp_payload_loop size offset events).bytesSent)) ∧
    (∀ (size offset : Nat) (events : List SendEvent), offset < size →
      (udp_payload_loop size offset (SendEvent.fatalErr :: events)).fatal = true ∧
      (tcp_payload_loop size offset (SendEvent.fatalErr :: events)).fatal = true) ∧
    (∀ (size : Nat) (events : List SendEvent), 0 < size →
      (send_frame_udp size (SendEvent.accepted 32 :: SendEvent.fatalErr :: events)).ret = -1 ∧
      (send_frame_tcp size (SendEvent.accepted 32 :: SendEvent.fatalErr :: events)).ret = -1) ∧
    (∀ (st : LoopState) (cur : Int) (use_tcp : Bool) (fs : Nat) (events : List SendEvent),
      (if use_tcp then send_frame_tcp fs events else send_frame_udp fs events).ret < 0 →
      (main_loop_emit st cur use_tcp fs events).kind = IterKind.shutdown) := by
  refine ⟨fun size offset events h => ⟨udp_no_fatal events size offset h,
    tcp_no_fatal events size offset h⟩, ?_, ?_, ?_, ?_⟩
  · intro size offset events hlt
    constructor
    · simp only [udp_payload_loop]
      rw [if_neg (by omega)]
      exact ⟨rfl, rfl, rfl⟩
    · simp only [tcp_payload_loop]
      rw [if_neg (by omega)]
      exact ⟨rfl, rfl, rfl⟩
  · intro size offset events hlt
    constructor
    · simp only [udp_payload_loop]
      rw [if_neg (by omega)]
    · simp only [tcp_payload_loop]
      rw [if_neg (by omega)]
  · intro size events hpos
    constructor
    · show (if (udp_payload_loop size 0 (SendEvent.fatalErr :: events)).fatal
          then (-1 : Int) else 0) = -1
      rw [show (udp_payload_loop size 0 (SendEvent.fatalErr :: events)).fatal = true by
        simp only [udp_payload_loop]
        rw [if_neg (by omega)]]
      rfl
    · show (if (tcp_payload_loop size 0 (SendEvent.fatalErr :: events)).fatal
          then (-1 : Int) else 0) = -1
      rw [show (tcp_payload_loop size 0 (SendEvent.fatalErr :: events)).fatal = true by
        simp only [tcp_payload_loop]
        rw [if_neg (by omega)]]
      rfl
  · intro st cur use_tcp fs events h
    unfold main_loop_emit main_loop_send_result
    rw [if_pos h]

/-- Witness for C6: no-fatal oracle, a would-block retry step, a fatal
abort and the loop shutdown, all at concrete inputs. -/
theorem C6_witness :
    ((udp_payload_loop 3000 0 [SendEvent.wouldBlock, SendEvent.accepted 1400]).fatal = false ∧
      (tcp_payload_loop 3000 0 [SendEvent.wouldBlock, SendEvent.accepted 1400]).fatal = false) ∧
    ((send_frame_udp 3000 [SendEvent.accepted 32, SendEvent.fatalErr]).ret = -1 ∧
      (send_frame_tcp 3000 [SendEvent.accepted 32, SendEvent.fatalErr]).ret = -1) ∧
    (main_loop_emit (LoopState.mk 5 0 0) 1 false 3000
        [SendEvent.accepted 32, SendEvent.fatalErr]).kind = IterKind.shutdown :=
  ⟨C6_fatal_handling.1 3000 0 _ (by decide),
    C6_fatal_handling.2.2.2.1 3000 [] (by decide),
    C6_fatal_handling.2.2.2.2 (LoopState.mk 5 0 0) 1 false 3000
      [SendEvent.accepted 32, SendEvent.fatalErr] (by decide)⟩

/-- Claim C3: when the polled cursor equals the previously observed cursor
and at least one frame has been counted, skip mode (force flag off) emits
nothing that iteration — no send of any kind — it bumps the skip counter
and re-polls; force mode falls through and performs the send of the
unchanged frame anyway. -/
theorem C3_skip_mode :
    ∀ (st : LoopState) (cur : Int) (use_tcp : Bool) (fs : Nat)
      (events : List SendEvent),
      cur = st.last_vdma_frame → 0 < st.frame_count →
      (main_loop_iter st cur false use_tcp fs events =
        IterOut.mk (LoopState.mk st.frame_count st.last_vdma_frame
          (st.skipped_frames + 1)) IterKind.skippedNoChange none) ∧
      ((main_loop_iter st cur false use_tcp fs events).sent = none) ∧
      (main_loop_iter st cur true use_tcp fs events =
        main_loop_emit st cur use_tcp fs events) ∧
      ((main_loop_emit st cur use_tcp fs events).sent =
        some (if use_tcp then send_frame_tcp fs events
              else send_frame_udp fs events)) := by
  intro st cur use_tcp fs events hcur hcount
  have h1 : main_loop_iter st cur false use_tcp fs events =
      IterOut.mk (LoopState.mk st.frame_count st.last_vdma_frame
        (st.skipped_frames + 1)) IterKind.skippedNoChange none := by
    unfold main_loop_iter
    rw [if_pos ⟨hcur, hcount⟩]
    simp
  have h3 : main_loop_iter st cur true use_tcp fs events =
      main_loop_emit st cur use_tcp fs events := by
    unfold main_loop_iter
    rw [if_pos ⟨hcur, hcount⟩]
    simp
  refine ⟨h1, by rw [h1], h3, ?_⟩
  unfold main_loop_emit main_loop_send_result
  split <;> split <;> rfl

/-- Witness for C3 at a concrete unchanged-cursor state. -/
theorem C3_witness :
    (main_loop_iter (LoopState.mk 5 2 0) 2 false false 614400 [] =
      IterOut.mk (LoopState.mk 5 2 1) IterKind.skippedNoChange none) ∧
    ((main_loop_iter (LoopState.mk 5 2 0) 2 false false 614400 []).sent = none) ∧
    (main_loop_iter (LoopState.mk 5 2 0) 2 true false 614400 [] =
      main_loop_emit (LoopState.mk 5 2 0) 2 false 614400 []) ∧
    ((main_loop_emit (LoopState.mk 5 2 0) 2 false 614400 []).sent =
      some (if false then send_frame_tcp 614400 [] else send_frame_udp 614400 [])) :=
  C3_skip_mode (LoopState.mk 5 2 0) 2 false 614400 [] rfl (by decide)

/-- Counterexample to claim C4 as stated: with the very first `send` call
(the header write) blocking, `send_frame_udp` does return the skip value 0
with zero payload bytes sent, but after that iteration the loop's
skipped-frames counter is still 0, not 1 — the counter counts only
unchanged-cursor skips — and the frame counter is incremented as if the
frame had been sent. -/
theorem C4_counterexample :
    (send_frame_udp 614400 [SendEvent.wouldBlock]).ret = 0 ∧
    (send_frame_udp 614400 [SendEvent.wouldBlock]).payload.bytesSent = 0 ∧
    (send_frame_udp 614400 [SendEvent.wouldBlock]).payload.chunkCalls = [] ∧
    (main_loop_iter (LoopState.mk 5 0 0) 1 false false 614400
        [SendEvent.wouldBlock]).st.skipped_frames = 0 ∧
    ¬ (main_loop_iter (LoopState.mk 5 0 0) 1 false false 614400
        [SendEvent.wouldBlock]).st.skipped_frames = 1 ∧
    (main_loop_iter (LoopState.mk 5 0 0) 1 false false 614400
        [SendEvent.wouldBlock]).st.frame_count = 6 := by
  decide

/-- Claim C4 as amended: a header would-block abandons the whole frame for
the cycle — `send_frame` returns the skip value 0, the header is not
counted as sent, no payload send is attempted and zero payload bytes go
out — but the loop's skipped-frames counter is NOT incremented (it counts
only unchanged-cursor skips) and the frame counter is incremented as if
the frame had been sent. -/
theorem C4_header_backpressure :
    ∀ (size : Nat) (events : List SendEvent) (st : LoopState) (cur : Int)
      (use_tcp : Bool),
      ((send_frame_udp size (SendEvent.wouldBlock :: events)).ret = 0 ∧
        (send_frame_udp size (SendEvent.wouldBlock :: events)).payload.bytesSent = 0 ∧
        (send_frame_udp size (SendEvent.wouldBlock :: events)).payload.chunkCalls = [] ∧
        (send_frame_udp size (SendEvent.wouldBlock :: events)).headerOk = false) ∧
      ((send_frame_tcp size (SendEvent.wouldBlock :: events)).ret = 0 ∧
        (send_frame_tcp size (SendEvent.wouldBlock :: events)).payload.bytesSent = 0 ∧
        (send_frame_tcp size (SendEvent.wouldBlock :: events)).payload.chunkCalls = [] ∧
        (send_frame_tcp size (SendEvent.wouldBlock :: events)).headerOk = false) ∧
      (cur ≠ st.last_vdma_frame →
        (main_loop_iter st cur false use_tcp size
            (SendEvent.wouldBlock :: events)).st.skipped_frames = st.skipped_frames ∧
        (main_loop_iter st cur false use_tcp size
            (SendEvent.wouldBlock :: events)).st.frame_count = st.frame_count + 1) := by
  intro size events st cur use_tcp
  refine ⟨⟨rfl, rfl, rfl, rfl⟩, ⟨rfl, rfl, rfl, rfl⟩, ?_⟩
  intro hne
  have hpath : main_loop_iter st cur false use_tcp size
      (SendEvent.wouldBlock :: events) =
      main_loop_emit st cur use_tcp size (SendEvent.wouldBlock :: events) := by
    unfold main_loop_iter
    rw [if_neg (by intro hand; exact hne hand.1)]
  rw [hpath]
  cases use_tcp with
  | false => exact ⟨rfl, rfl⟩
  | true => exact ⟨rfl, rfl⟩

/-- Witness for C4 (amended) at a concrete changed-cursor state. -/
theorem C4_header_backpressure_witness :
    ((send_frame_udp 614400 [SendEvent.wouldBlock]).ret = 0 ∧
      (send_frame_udp 614400 [SendEvent.wouldBlock]).payload.bytesSent = 0 ∧
      (send_frame_udp 614400 [SendEvent.wouldBlock]).payload.chunkCalls = [] ∧
      (send_frame_udp 614400 [SendEvent.wouldBlock]).headerOk = false) ∧
    ((send_frame_tcp 614400 [SendEvent.wouldBlock]).ret = 0 ∧
      (send_frame_tcp 614400 [SendEvent.wouldBlock]).payload.bytesSent = 0 ∧
      (send_frame_tcp 614400 [SendEvent.wouldBlock]).payload.chunkCalls = [] ∧
      (send_frame_tcp 614400 [SendEvent.wouldBlock]).headerOk = false) ∧
    ((1 : Int) ≠ (LoopState.mk 5 0 0).last_vdma_frame →
      (main_loop_iter (LoopState.mk 5 0 0) 1 false false 614400
          [SendEvent.wouldBlock]).st.skipped_frames = (LoopState.mk 5 0 0).skipped_frames ∧
      (main_loop_iter (LoopState.mk 5 0 0) 1 false false 614400
          [SendEvent.wouldBlock]).st.frame_count = (LoopState.mk 5 0 0).frame_count + 1) :=
  C4_header_backpressure 614400 [] (LoopState.mk 5 0 0) 1 false

theorem getD_range_map (f : Nat → Nat) (n i : Nat) :
    ((List.range n).map f).getD i 0 = if i < n then f i else 0 := by
  rw [List.getD_eq_getElem?_getD, List.getElem?_map]
  split
  · rename_i h
    rw [List.getElem?_range h]
    rfl
  · rename_i h
    rw [List.getElem?_eq_none (by simpa using h)]
    rfl

theorem cex_len : cex_buf.length = 1024 := by
  simp [cex_buf]

theorem synth_len : synth_buf.length = 1024 := by
  simp [synth_buf]

theorem cex_b0 (g : Nat) (hg : g < 256) : cex_buf.getD (4 * g) 0 = 123 := by
  unfold cex_buf
  rw [getD_range_map, if_pos (by omega)]
  have h4 : 4 * g % 4 = 0 := by omega
  simp [h4]

theorem cex_b1 (g : Nat) (hg : g < 256) : cex_buf.getD (4 * g + 1) 0 = 8 := by
  unfold cex_buf
  rw [getD_range_map, if_pos (by omega)]
  have h4 : (4 * g + 1) % 4 = 1 := by omega
  simp [h4]

theorem cex_b2 (g : Nat) (hg : g < 256) : cex_buf.getD (4 * g + 2) 0 = 133 := by
  unfold cex_buf
  rw [getD_range_map, if_pos (by omega)]
  have h4 : (4 * g + 2) % 4 = 2 := by omega
  simp [h4]

theorem cex_b3 (g : Nat) (hg : g < 256) : cex_buf.getD (4 * g + 3) 0 = 16 := by
  unfold cex_buf
  rw [getD_range_map, if_pos (by omega)]
  have h4 : (4 * g + 3) % 4 = 3 := by omega
  simp [h4]

theorem synth_b0 (g : Nat) (hg : g < 256) : synth_buf.getD (4 * g) 0 = 0 := by
  unfold synth_buf
  rw [getD_range_map, if_pos (by omega)]
  have h4 : 4 * g % 4 = 0 := by omega
  simp [h4]

theorem synth_b1 (g : Nat) (hg : g < 256) : synth_buf.getD (4 * g + 1) 0 = 128 := by
  unfold synth_buf
  rw [getD_range_map, if_pos (by omega)]
  have h4 : (4 * g + 1) % 4 = 1 := by omega
  simp [h4]

theorem synth_b2 (g : Nat) (hg : g < 256) : synth_buf.getD (4 * g + 2) 0 = 255 := by
  unfold synth_buf
  rw [getD_range_map, if_pos (by omega)]
  have h4 : (4 * g + 2) % 4 = 2 := by omega
  simp [h4]

theorem synth_b3 (g : Nat) (hg : g < 256) : synth_buf.getD (4 * g + 3) 0 = 128 := by
  unfold synth_buf
  rw [getD_range_map, if_pos (by omega)]
  have h4 : (4 * g + 3) % 4 = 3 := by omega
  simp [h4]

theorem yuv_accum_succ (buf : List Nat) (k : Nat) :
    yuv_accum buf (k + 1) = yuv_group_step buf (yuv_accum buf k) k := by
  unfold yuv_accum
  rw [List.range_succ, List.foldl_append, List.foldl_cons, List.foldl_nil]

theorem cex_accum (k : Nat) (hk : k ≤ 256) :
    yuv_accum cex_buf k =
      ⟨24 * k, 320 * k, 256 * k, 32818 * k, 256 * k, 32818 * k, 24 * k, 320 * k⟩ := by
  induction k with
  | zero => rfl
  | succ k ih =>
    rw [yuv_accum_succ, ih (by omega)]
    simp only [yuv_group_step, cex_b0 k (by omega), cex_b1 k (by omega),
      cex_b2 k (by omega), cex_b3 k (by omega), yuv_sums.mk.injEq]
    omega

theorem synth_accum (k : Nat) (hk : k ≤ 256) :
    yuv_accum synth_buf k =
      ⟨256 * k, 32768 * k, 255 * k, 65025 * k, 255 * k, 65025 * k, 256 * k, 32768 * k⟩ := by
  induction k with
  | zero => rfl
  | succ k ih =>
    rw [yuv_accum_succ, ih (by omega)]
    simp only [yuv_group_step, synth_b0 k (by omega), synth_b1 k (by omega),
      synth_b2 k (by omega), synth_b3 k (by omega), yuv_sums.mk.injEq]
    omega

theorem yuyv_chroma_bytes_succ (buf : List Nat) (k : Nat) :
    yuyv_chroma_bytes buf (k + 1) =
      yuyv_chroma_bytes buf k ++ [buf.getD (4 * k + 1) 0, buf.getD (4 * k + 3) 0] := by
  unfold yuyv_chroma_bytes
  rw [List.range_succ, List.flatMap_append]
  simp

theorem yuyv_luma_bytes_succ (buf : List Nat) (k : Nat) :
    yuyv_luma_bytes buf (k + 1) =
      yuyv_luma_bytes buf k ++ [buf.getD (4 * k) 0, buf.getD (4 * k + 2) 0] := by
  unfold yuyv_luma_bytes
  rw [List.range_succ, List.flatMap_append]
  simp

theorem yuv_accum_sums (buf : List Nat) (k : Nat) :
    yuv_accum buf k =
      ⟨(yuyv_chroma_bytes buf k).sum,
        ((yuyv_chroma_bytes buf k).map fun x => x * x).sum,
        (yuyv_luma_bytes buf k).sum,
        ((yuyv_luma_bytes buf k).map fun x => x * x).sum,
        (yuyv_luma_bytes buf k).sum,
        ((yuyv_luma_bytes buf k).map fun x => x * x).sum,
        (yuyv_chroma_bytes buf k).sum,
        ((yuyv_chroma_bytes buf k).map fun x => x * x).sum⟩ := by
  induction k with
  | zero => rfl
  | succ k ih =>
    rw [yuv_accum_succ, ih, yuyv_chroma_bytes_succ, yuyv_luma_bytes_succ]
    simp only [yuv_group_step, List.map_append, List.sum_append, List.map_cons,
      List.map_nil, List.sum_cons, List.sum_nil, yuv_sums.mk.injEq]
    refine ⟨?_, ?_, ?_, ?_, ?_, ?_, ?_, ?_⟩ <;> ring

theorem yuyv_bytes_length (buf : List Nat) (k : Nat) :
    (yuyv_chroma_bytes buf k).length = 2 * k ∧
      (yuyv_luma_bytes buf k).length = 2 * k := by
  induction k with
  | zero => exact ⟨rfl, rfl⟩
  | succ k ih =>
    rw [yuyv_chroma_bytes_succ, yuyv_luma_bytes_succ]
    simp only [List.length_append, List.length_cons, List.length_nil]
    omega

theorem reg_score_eq (c l : List Nat) (n : ℚ) (hc : (c.length : ℚ) = n)
    (hl : (l.length : ℚ) = n) :
    reg_score c l =
      yuv_score c.sum ((c.map fun x => x * x).sum) l.sum
        ((l.map fun x => x * x).sum) n := by
  unfold reg_score yuv_score qvar qmean
  rw [hc, hl]

theorem cex_scores :
    detect_scores cex_buf = ((17 : ℚ) / 26 + 29 / 32, (26 : ℚ) / 17) := by
  simp only [detect_scores]
  rw [cex_len]
  have hg : sample_groups 1024 = 256 := by decide
  rw [hg, cex_accum 256 (le_refl 256)]
  rw [Prod.mk.injEq]
  constructor
  · unfold yuv_score
    norm_num
  · unfold yuv_score
    norm_num

theorem synth_scores :
    detect_scores synth_buf = ((4 : ℚ) / 65029, (65029 : ℚ) / 4 + 1 / 256) := by
  simp only [detect_scores]
  rw [synth_len]
  have hg : sample_groups 1024 = 256 := by decide
  rw [hg, synth_accum 256 (le_refl 256)]
  rw [Prod.mk.injEq]
  constructor
  · unfold yuv_score
    norm_num
  · unfold yuv_score
    norm_num
    rw [show |(1 : ℚ) / 2| = 1 / 2 from abs_of_nonneg (by norm_num)]
    norm_num

/-- Counterexample to claim C8 as stated: on the buffer `cex_buf` the
unregularized specification score (`chroma_variance / luma_variance +
|chroma_mean - 128| / 128`) is strictly lower for the YUYV hypothesis, yet
the code — which regularizes both variances by `eps = 1` — classifies the
buffer as UYVY, so the classifier does not always return the hypothesis
with the lower score as that score is worded. -/
theorem C8_counterexample :
    detect_yuv422_format cex_buf = pixel_format_t.PIXFMT_UYVY ∧
    spec_score (yuyv_chroma_bytes cex_buf 256) (yuyv_luma_bytes cex_buf 256) <
      spec_score (yuyv_luma_bytes cex_buf 256) (yuyv_chroma_bytes cex_buf 256) := by
  constructor
  · unfold detect_yuv422_format
    rw [cex_len]
    rw [if_neg (by norm_num), if_neg (by decide), cex_scores]
    rw [if_pos (by norm_num)]
  · have h := (yuv_accum_sums cex_buf 256).symm.trans (cex_accum 256 (le_refl 256))
    simp only [yuv_sums.mk.injEq] at h
    obtain ⟨hcs, hcs2, hls, hls2, -, -, -, -⟩ := h
    have hclen := (yuyv_bytes_length cex_buf 256).1
    have hllen := (yuyv_bytes_length cex_buf 256).2
    unfold spec_score qvar qmean
    rw [hcs, hcs2, hls, hls2, hclen, hllen]
    norm_num

/-- Claim C8 as amended: for every sample of at least the minimal size
(1024 bytes), the classifier returns the hypothesis whose regularized score
`(chroma_variance + 1) / (luma_variance + 1) + |chroma_mean - 128| / 128`
over the capped sample is strictly lower (ties to YUYV); and the synthetic
buffer whose odd byte positions are constant 128 and whose even positions
have high variance is classified as YUYV (chroma on the odd positions). -/
theorem C8_regularized_score :
    (∀ buf : List Nat, 1024 ≤ buf.length →
      detect_yuv422_format buf =
        (if reg_score (yuyv_luma_bytes buf (sample_groups buf.length))
              (yuyv_chroma_bytes buf (sample_groups buf.length)) <
            reg_score (yuyv_chroma_bytes buf (sample_groups buf.length))
              (yuyv_luma_bytes buf (sample_groups buf.length))
          then pixel_format_t.PIXFMT_UYVY else pixel_format_t.PIXFMT_YUYV)) ∧
    detect_yuv422_format synth_buf = pixel_format_t.PIXFMT_YUYV := by
  constructor
  · intro buf hlen
    have hg64 : 64 ≤ sample_groups buf.length := by
      unfold sample_groups
      split <;> omega
    have hblen := yuyv_bytes_length buf (sample_groups buf.length)
    have hccast : ((yuyv_chroma_bytes buf (sample_groups buf.length)).length : ℚ) =
        ((sample_groups buf.length * 2 : Nat) : ℚ) := by
      rw [hblen.1]
      push_cast
      ring
    have hlcast : ((yuyv_luma_bytes buf (sample_groups buf.length)).length : ℚ) =
        ((sample_groups buf.length * 2 : Nat) : ℚ) := by
      rw [hblen.2]
      push_cast
      ring
    have h1 : (detect_scores buf).1 =
        reg_score (yuyv_chroma_bytes buf (sample_groups buf.length))
          (yuyv_luma_bytes buf (sample_groups buf.length)) := by
      simp only [detect_scores]
      rw [yuv_accum_sums]
      exact (reg_score_eq _ _ _ hccast hlcast).symm
    have h2 : (detect_scores buf).2 =
        reg_score (yuyv_luma_bytes buf (sample_groups buf.length))
          (yuyv_chroma_bytes buf (sample_groups buf.length)) := by
      simp only [detect_scores]
      rw [yuv_accum_sums]
      exact (reg_score_eq _ _ _ hlcast hccast).symm
    unfold detect_yuv422_format
    rw [if_neg (by omega), if_neg (by omega), h1, h2]
  · unfold detect_yuv422_format
    rw [synth_len]
    rw [if_neg (by norm_num), if_neg (by decide), synth_scores]
    rw [if_neg (by norm_num)]

/-- Witness for C8 (amended) at the concrete buffer `cex_buf`. -/
theorem C8_regularized_score_witness :
    detect_yuv422_format cex_buf =
      (if reg_score (yuyv_luma_bytes cex_buf (sample_groups cex_buf.length))
            (yuyv_chroma_bytes cex_buf (sample_groups cex_buf.length)) <
          reg_score (yuyv_chroma_bytes cex_buf (sample_groups cex_buf.length))
            (yuyv_luma_bytes cex_buf (sample_groups cex_buf.length))
        then pixel_format_t.PIXFMT_UYVY else pixel_format_t.PIXFMT_YUYV) :=
  C8_regularized_score.1 cex_buf (by simp [cex_buf])
